import Mathlib

/-!
Shallow embedding of `gluon/models/squeezenext.py` (SqueezeNext in Gluon).

Layer constructors (`nn.Conv2D`, `nn.BatchNorm`, `nn.Activation`) are modelled
as configuration records: the repository only wires configurations together and
delegates all numerics to the framework.  Integer kernel sizes, strides and
paddings passed as Python ints are broadcast by Gluon to pairs, so they are
modelled as pairs here.  Python `//` on nonnegative ints is `Nat` division,
and Python `int()` on a nonnegative float is the floor; width multipliers are
modelled as rationals.
-/

/-- Configuration of an `mxnet.gluon.nn.Conv2D` layer: the fields the source
passes, plus `use_bias`, which the source never passes and which therefore
keeps Gluon's default value `True`. -/
structure Conv2D where
  channels : ℕ
  kernel_size : ℕ × ℕ
  strides : ℕ × ℕ
  padding : ℕ × ℕ
  in_channels : ℕ
  use_bias : Bool
deriving Inhabited, DecidableEq, Repr

/-- The `nn.Conv2D(...)` call exactly as made in this file: `use_bias` is not
among the keyword arguments, so Gluon's default `use_bias=True` applies. -/
def nnConv2D (channels : ℕ) (kernel_size : ℕ × ℕ) (strides : ℕ × ℕ)
    (padding : ℕ × ℕ) (in_channels : ℕ) : Conv2D :=
  { channels := channels
    kernel_size := kernel_size
    strides := strides
    padding := padding
    in_channels := in_channels
    use_bias := true }

/-- Configuration of an `mxnet.gluon.nn.BatchNorm` layer. -/
structure BatchNorm where
  in_channels : ℕ
deriving Inhabited, DecidableEq, Repr

/-- An `mxnet.gluon.nn.Activation` layer; the source only ever builds
`nn.Activation('relu')`.  It holds no learnable parameters. -/
inductive Activation where
  | relu
deriving Inhabited, DecidableEq, Repr

/-- `SqnxtConv`: convolution + batch normalization + ReLU, as assembled in
`SqnxtConv.__init__` (lines 10-28 of the source). -/
structure SqnxtConv where
  conv : Conv2D
  bn : BatchNorm
  activ : Activation
deriving Inhabited, DecidableEq, Repr

/-- `SqnxtConv.__init__(in_channels, out_channels, kernel_size, strides,
padding)`.  Call sites that omit `padding` pass the Python default `(0, 0)`
explicitly here. -/
def SqnxtConv.make (in_channels out_channels : ℕ) (kernel_size : ℕ × ℕ)
    (strides : ℕ × ℕ) (padding : ℕ × ℕ) : SqnxtConv :=
  { conv := nnConv2D out_channels kernel_size strides padding in_channels
    bn := { in_channels := out_channels }
    activ := Activation.relu }

/-- The `if strides == 2 / elif in_channels > out_channels / else` chain at the
top of `SqnxtBlock.__init__` (lines 45-53), which sets `reduction_den` and the
`self.reduce` flag together. -/
def reductionConfig (in_channels out_channels strides : ℕ) : ℕ × Bool :=
  if strides = 2 then (1, true)
  else if in_channels > out_channels then (4, true)
  else (2, false)

/-- The derived reduction denominator of a `SqnxtBlock`. -/
def reduction_den (in_channels out_channels strides : ℕ) : ℕ :=
  (reductionConfig in_channels out_channels strides).1

/-- The derived `self.reduce` flag of a `SqnxtBlock`. -/
def reduceFlag (in_channels out_channels strides : ℕ) : Bool :=
  (reductionConfig in_channels out_channels strides).2

/-- `SqnxtBlock`: five chained `SqnxtConv` units, an optional projection
shortcut (the Python object only has a `self.shortcut` attribute when
`self.reduce` is true, modelled by an `Option`), and a final activation. -/
structure SqnxtBlock where
  reduce : Bool
  conv1 : SqnxtConv
  conv2 : SqnxtConv
  conv3 : SqnxtConv
  conv4 : SqnxtConv
  conv5 : SqnxtConv
  shortcut : Option SqnxtConv
  activ : Activation
deriving Inhabited, DecidableEq, Repr

/-- `SqnxtBlock.__init__(in_channels, out_channels, strides)` (lines 39-90).
Python `//` on these nonnegative ints is `Nat` division.  Scalar kernel sizes
and strides are written as the pairs Gluon broadcasts them to. -/
def SqnxtBlock.make (in_channels out_channels strides : ℕ) : SqnxtBlock :=
  { reduce := reduceFlag in_channels out_channels strides
    conv1 := SqnxtConv.make in_channels
      (in_channels / reduction_den in_channels out_channels strides)
      (1, 1) (strides, strides) (0, 0)
    conv2 := SqnxtConv.make
      (in_channels / reduction_den in_channels out_channels strides)
      (in_channels / (2 * reduction_den in_channels out_channels strides))
      (1, 1) (1, 1) (0, 0)
    conv3 := SqnxtConv.make
      (in_channels / (2 * reduction_den in_channels out_channels strides))
      (in_channels / reduction_den in_channels out_channels strides)
      (1, 3) (1, 1) (0, 1)
    conv4 := SqnxtConv.make
      (in_channels / reduction_den in_channels out_channels strides)
      (in_channels / reduction_den in_channels out_channels strides)
      (3, 1) (1, 1) (1, 0)
    conv5 := SqnxtConv.make
      (in_channels / reduction_den in_channels out_channels strides)
      out_channels (1, 1) (1, 1) (0, 0)
    shortcut :=
      if reduceFlag in_channels out_channels strides then
        some (SqnxtConv.make in_channels out_channels (1, 1) (strides, strides)
          (0, 0))
      else none
    activ := Activation.relu }

/-- Input channel count of a block, read off its first convolution. -/
def SqnxtBlock.inCh (b : SqnxtBlock) : ℕ := b.conv1.conv.in_channels

/-- Output channel count of a block, read off its fifth convolution. -/
def SqnxtBlock.outCh (b : SqnxtBlock) : ℕ := b.conv5.conv.channels

/-- Stride of a block, read off its first convolution. -/
def SqnxtBlock.strideOf (b : SqnxtBlock) : ℕ := b.conv1.conv.strides.1

lemma reduceFlag_eq_true_iff (ic oc s : ℕ) :
    reduceFlag ic oc s = true ↔ (s = 2 ∨ oc < ic) := by
  unfold reduceFlag reductionConfig
  split_ifs with h1 h2 <;> simp_all

lemma shortcut_make (ic oc s : ℕ) :
    (SqnxtBlock.make ic oc s).shortcut =
      if s = 2 ∨ oc < ic then
        some (SqnxtConv.make ic oc (1, 1) (s, s) (0, 0))
      else none := by
  show (if reduceFlag ic oc s then _ else none) = _
  by_cases h : s = 2 ∨ oc < ic
  · rw [if_pos ((reduceFlag_eq_true_iff ic oc s).2 h), if_pos h]
  · rw [if_neg h, if_neg]
    intro htrue
    exact h ((reduceFlag_eq_true_iff ic oc s).1 htrue)

/-- Abstract interpretation of the framework layer operations used by the
forward passes.  The repository delegates all tensor numerics to the
framework, so forward passes are stated for an arbitrary carrier `T` equipped
with these operations. -/
structure TensorOps (T : Type) where
  conv2dOp : Conv2D → T → T
  batchNormOp : BatchNorm → T → T
  activationOp : Activation → T → T
  addOp : T → T → T

/-- `SqnxtConv.hybrid_forward` (lines 30-34): convolution, then batch
normalization, then activation. -/
def SqnxtConv.forward {T : Type} (ops : TensorOps T) (u : SqnxtConv)
    (x : T) : T :=
  ops.activationOp u.activ (ops.batchNormOp u.bn (ops.conv2dOp u.conv x))

/-- `SqnxtBlock.hybrid_forward` (lines 92-104).  The Python code branches on
`self.reduce` and reads `self.shortcut`, which exists exactly when
`self.reduce` is true (see `shortcut_make`); the branch is modelled by
matching on the optional shortcut. -/
def SqnxtBlock.forward {T : Type} (ops : TensorOps T) (b : SqnxtBlock)
    (x : T) : T :=
  let identity := x
  let x1 := b.conv1.forward ops x
  let x2 := b.conv2.forward ops x1
  let x3 := b.conv3.forward ops x2
  let x4 := b.conv4.forward ops x3
  let x5 := b.conv5.forward ops x4
  let x6 :=
    match b.shortcut with
    | some sc => ops.addOp x5 (sc.forward ops identity)
    | none => ops.addOp x5 (ops.activationOp b.activ identity)
  ops.activationOp b.activ x6

/-- Python `int()` applied to a real value: truncation toward zero.  For a
rational `num/den` in lowest terms with `den > 0` this is `num // den`
toward zero, computed here by natural division on `|num|`; `pyInt_of_nonneg`
identifies it with the floor on nonnegative arguments. -/
def pyInt (q : ℚ) : ℤ :=
  if 0 ≤ q then ((q.num.toNat / q.den : ℕ) : ℤ)
  else -(((-q).num.toNat / (-q).den : ℕ) : ℤ)

/-- Python `int()` of a nonnegative value, as a channel count.  All width
multipliers quantified over in this development are nonnegative, where
`pyInt` is the floor and the `toNat` is lossless. -/
def pyIntNat (q : ℚ) : ℕ :=
  (pyInt q).toNat

lemma pyInt_of_nonneg {q : ℚ} (h : 0 ≤ q) : pyInt q = ⌊q⌋ := by
  have hnum : 0 ≤ q.num := Rat.num_nonneg.2 h
  rw [pyInt, if_pos h, Rat.floor_def, Int.natCast_div,
    Int.toNat_of_nonneg hnum]

lemma pyIntNat_le_pyIntNat {a b : ℚ} (ha : 0 ≤ a) (hab : a ≤ b) :
    pyIntNat a ≤ pyIntNat b := by
  have hb : 0 ≤ b := le_trans ha hab
  simp only [pyIntNat, pyInt_of_nonneg ha, pyInt_of_nonneg hb]
  exact Int.toNat_le_toNat (Int.floor_le_floor hab)

/-- Fixed per-stage output channel counts (`out_channels_per_stage`,
line 117). -/
def out_channels_per_stage : List ℕ := [32, 64, 128, 256]

/-- Fixed per-stage strides (`strides_per_stage`, line 118). -/
def strides_per_stage : List ℕ := [1, 2, 2, 2]

/-- The inner loop `for j in range(len(strides_i))` of `SqueezeNext.__init__`
(lines 135-141): for each stride, add a block whose channel counts scale the
running (unscaled) `in_channels` and the stage's `out_channels_per_stage[i]`
by `width_x` under Python `int()`; after iteration `j == 0` the running count
is overwritten with the unscaled stage output value.  Returns the blocks of
the stage together with the final running count. -/
def stageLoop (width_x : ℚ) (out_ch : ℕ) :
    List ℕ → ℕ → ℕ → List SqnxtBlock × ℕ
  | [], _, in_ch => ([], in_ch)
  | s :: rest, j, in_ch =>
    let blk := SqnxtBlock.make (pyIntNat (width_x * (in_ch : ℚ)))
      (pyIntNat (width_x * (out_ch : ℚ))) s
    let in_ch2 := if j = 0 then out_ch else in_ch
    let p := stageLoop width_x out_ch rest (j + 1) in_ch2
    (blk :: p.1, p.2)

/-- One stage of `SqueezeNext.__init__` (lines 133-141): the stride list is
`[strides_per_stage[i]] + [1] * (blocks[i] - 1)` and the inner loop starts at
`j = 0` with the current running channel count.  Note Python `[1] * (n - 1)`
is empty for `n = 0`, like `List.replicate (n - 1) 1` under `Nat`
subtraction. -/
def buildStage (width_x : ℚ) (in_ch out_ch stride_i nblocks : ℕ) :
    List SqnxtBlock × ℕ :=
  stageLoop width_x out_ch ([stride_i] ++ List.replicate (nblocks - 1) 1) 0
    in_ch

/-- Closed form of one built stage: a leading block taking the running width
to the stage width, followed by stride-1 blocks that keep the stage width. -/
def stageOf (width_x : ℚ) (in_ch out_ch stride_i nblocks : ℕ) :
    List SqnxtBlock :=
  SqnxtBlock.make (pyIntNat (width_x * (in_ch : ℚ)))
      (pyIntNat (width_x * (out_ch : ℚ))) stride_i ::
    List.replicate (nblocks - 1)
      (SqnxtBlock.make (pyIntNat (width_x * (out_ch : ℚ)))
        (pyIntNat (width_x * (out_ch : ℚ))) 1)

/-- The outer loop `for i in range(len(blocks))` (lines 132-142), indexing the
fixed lists `out_channels_per_stage` and `strides_per_stage`; those lists are
consumed in lockstep with `blocks`, and `none` models the Python `IndexError`
raised when `blocks` is longer than the four configured stages. -/
def buildStages (width_x : ℚ) :
    List ℕ → List ℕ → List ℕ → ℕ → Option (List (List SqnxtBlock) × ℕ)
  | [], _, _, in_ch => some ([], in_ch)
  | nblocks :: bs, out_ch :: ocs, stride_i :: sts, in_ch =>
    let p := buildStage width_x in_ch out_ch stride_i nblocks
    match buildStages width_x bs ocs sts p.2 with
    | some (r, fin) => some (p.1 :: r, fin)
    | none => none
  | _ :: _, [], _, _ => none
  | _ :: _, _ :: _, [], _ => none

/-- A constructed `SqueezeNext` network (lines 107-154).  The parameter-free
max-pool, average-pool and flatten layers carry no channel configuration and
are omitted; `dense_in` records the `in_units` of the final `nn.Dense`. -/
structure SqueezeNext where
  init_block : SqnxtConv
  stages : List (List SqnxtBlock)
  final_block : SqnxtConv
  dense_in : ℕ
  classes : ℕ
deriving Inhabited, DecidableEq, Repr

/-- `SqueezeNext.__init__(width_x, blocks, classes)` (lines 109-154): stem
convolution from 3 input channels, the four stages, then a final 1x1
convolution from the width-scaled running count to `int(width_x * 128)`, and a
dense head with that same input width. -/
def SqueezeNext.make (width_x : ℚ) (blocks : List ℕ) (classes : ℕ) :
    Option SqueezeNext :=
  match buildStages width_x blocks out_channels_per_stage strides_per_stage
    64 with
  | some (stgs, fin) => some
    { init_block := SqnxtConv.make 3 (pyIntNat (width_x * 64)) (7, 7) (2, 2)
        (1, 1)
      stages := stgs
      final_block := SqnxtConv.make (pyIntNat (width_x * (fin : ℚ)))
        (pyIntNat (width_x * 128)) (1, 1) (1, 1) (0, 0)
      dense_in := pyIntNat (width_x * 128)
      classes := classes }
  | none => none

/-- The architecture-tag dispatch of `get_squeezenext` (lines 167-172). -/
def archBlocks (arch_type : String) : Except String (List ℕ) :=
  if arch_type = "23" then Except.ok [6, 6, 8, 1]
  else if arch_type = "23v5" then Except.ok [2, 4, 14, 1]
  else Except.error ("Unsupported SqueezeNet architecture type " ++ arch_type)

/-- `get_squeezenext(arch_type, scale, pretrained)` (lines 162-180): resolve
the tag to block counts (raising on unknown tags), then reject
`pretrained=True`, then construct the network with the default 1000
classes. -/
def get_squeezenext (arch_type : String) (scale : ℚ) (pretrained : Bool) :
    Except String SqueezeNext :=
  match archBlocks arch_type with
  | Except.error e => Except.error e
  | Except.ok blocks =>
    if pretrained then Except.error "Pretrained model is not supported"
    else
      match SqueezeNext.make scale blocks 1000 with
      | some net => Except.ok net
      | none => Except.error "list index out of range"

lemma stageLoop_const (w : ℚ) (oc : ℕ) :
    ∀ (rest : List ℕ) (j : ℕ),
      stageLoop w oc rest j oc =
        (rest.map fun s =>
          SqnxtBlock.make (pyIntNat (w * (oc : ℚ)))
            (pyIntNat (w * (oc : ℚ))) s, oc)
  | [], _ => rfl
  | s :: rest, j => by
    simp only [stageLoop, List.map_cons, ite_self,
      stageLoop_const w oc rest (j + 1)]

lemma buildStage_eq (w : ℚ) (ic oc st n : ℕ) :
    buildStage w ic oc st n = (stageOf w ic oc st n, oc) := by
  unfold buildStage stageOf
  simp only [List.singleton_append, stageLoop, reduceIte, stageLoop_const,
    List.append_eq, List.nil_append, List.map_replicate]

lemma stageOf_length (w : ℚ) (ic oc st n : ℕ) :
    (stageOf w ic oc st n).length = max n 1 := by
  simp only [stageOf, List.length_cons, List.length_replicate]
  omega

lemma make_nil (w : ℚ) (c : ℕ) :
    SqueezeNext.make w [] c = some
      { init_block := SqnxtConv.make 3 (pyIntNat (w * 64)) (7, 7) (2, 2)
          (1, 1)
        stages := []
        final_block := SqnxtConv.make (pyIntNat (w * 64))
          (pyIntNat (w * 128)) (1, 1) (1, 1) (0, 0)
        dense_in := pyIntNat (w * 128)
        classes := c } := by
  simp [SqueezeNext.make, buildStages, Nat.cast_ofNat]

lemma make_one (w : ℚ) (b0 c : ℕ) :
    SqueezeNext.make w [b0] c = some
      { init_block := SqnxtConv.make 3 (pyIntNat (w * 64)) (7, 7) (2, 2)
          (1, 1)
        stages := [stageOf w 64 32 1 b0]
        final_block := SqnxtConv.make (pyIntNat (w * 32))
          (pyIntNat (w * 128)) (1, 1) (1, 1) (0, 0)
        dense_in := pyIntNat (w * 128)
        classes := c } := by
  simp [SqueezeNext.make, buildStages, buildStage_eq, out_channels_per_stage,
    strides_per_stage, Nat.cast_ofNat]

lemma make_two (w : ℚ) (b0 b1 c : ℕ) :
    SqueezeNext.make w [b0, b1] c = some
      { init_block := SqnxtConv.make 3 (pyIntNat (w * 64)) (7, 7) (2, 2)
          (1, 1)
        stages := [stageOf w 64 32 1 b0, stageOf w 32 64 2 b1]
        final_block := SqnxtConv.make (pyIntNat (w * 64))
          (pyIntNat (w * 128)) (1, 1) (1, 1) (0, 0)
        dense_in := pyIntNat (w * 128)
        classes := c } := by
  simp [SqueezeNext.make, buildStages, buildStage_eq, out_channels_per_stage,
    strides_per_stage, Nat.cast_ofNat]

lemma make_three (w : ℚ) (b0 b1 b2 c : ℕ) :
    SqueezeNext.make w [b0, b1, b2] c = some
      { init_block := SqnxtConv.make 3 (pyIntNat (w * 64)) (7, 7) (2, 2)
          (1, 1)
        stages := [stageOf w 64 32 1 b0, stageOf w 32 64 2 b1,
          stageOf w 64 128 2 b2]
        final_block := SqnxtConv.make (pyIntNat (w * 128))
          (pyIntNat (w * 128)) (1, 1) (1, 1) (0, 0)
        dense_in := pyIntNat (w * 128)
        classes := c } := by
  simp [SqueezeNext.make, buildStages, buildStage_eq, out_channels_per_stage,
    strides_per_stage, Nat.cast_ofNat]

lemma make_four (w : ℚ) (b0 b1 b2 b3 c : ℕ) :
    SqueezeNext.make w [b0, b1, b2, b3] c = some
      { init_block := SqnxtConv.make 3 (pyIntNat (w * 64)) (7, 7) (2, 2)
          (1, 1)
        stages := [stageOf w 64 32 1 b0, stageOf w 32 64 2 b1,
          stageOf w 64 128 2 b2, stageOf w 128 256 2 b3]
        final_block := SqnxtConv.make (pyIntNat (w * 256))
          (pyIntNat (w * 128)) (1, 1) (1, 1) (0, 0)
        dense_in := pyIntNat (w * 128)
        classes := c } := by
  simp [SqueezeNext.make, buildStages, buildStage_eq, out_channels_per_stage,
    strides_per_stage, Nat.cast_ofNat]

lemma make_five_none (w : ℚ) (b0 b1 b2 b3 b4 : ℕ) (rest : List ℕ) (c : ℕ) :
    SqueezeNext.make w (b0 :: b1 :: b2 :: b3 :: b4 :: rest) c = none := by
  simp [SqueezeNext.make, buildStages, buildStage_eq, out_channels_per_stage,
    strides_per_stage]

lemma stageOf_spec (w : ℚ) (ic oc st n : ℕ) :
    ∃ first rest, stageOf w ic oc st n = first :: rest ∧
      first.strideOf = st ∧
      first.inCh = pyIntNat (w * (ic : ℚ)) ∧
      first.outCh = pyIntNat (w * (oc : ℚ)) ∧
      ∀ b ∈ rest, b.strideOf = 1 ∧
        b.inCh = pyIntNat (w * (oc : ℚ)) ∧
        b.outCh = pyIntNat (w * (oc : ℚ)) := by
  refine ⟨_, _, rfl, rfl, rfl, rfl, ?_⟩
  intro b hb
  rw [List.eq_of_mem_replicate hb]
  exact ⟨rfl, rfl, rfl⟩

lemma mem_stageOf (w : ℚ) (ic oc st n : ℕ) {b : SqnxtBlock}
    (hb : b ∈ stageOf w ic oc st n) :
    b = SqnxtBlock.make (pyIntNat (w * (ic : ℚ)))
        (pyIntNat (w * (oc : ℚ))) st ∨
    b = SqnxtBlock.make (pyIntNat (w * (oc : ℚ)))
        (pyIntNat (w * (oc : ℚ))) 1 := by
  rcases List.mem_cons.1 hb with h | h
  · exact Or.inl h
  · exact Or.inr (List.eq_of_mem_replicate h)

lemma shortcut_none_iff (ic oc s : ℕ) :
    (SqnxtBlock.make ic oc s).shortcut = none ↔ (s ≠ 2 ∧ ic ≤ oc) := by
  rw [shortcut_make]
  constructor
  · intro hn
    by_cases h : s = 2 ∨ oc < ic
    · rw [if_pos h] at hn
      exact absurd hn (by simp)
    · push_neg at h
      exact h
  · rintro ⟨h1, h2⟩
    rw [if_neg]
    rintro (h | h)
    · exact h1 h
    · exact absurd h2 (not_le.2 h)

lemma firstBlock_identity (w : ℚ) (hw : 0 ≤ w) {ic oc st : ℕ}
    (hocic : oc ≤ ic)
    (hid : (SqnxtBlock.make (pyIntNat (w * (ic : ℚ)))
      (pyIntNat (w * (oc : ℚ))) st).shortcut = none) :
    (SqnxtBlock.make (pyIntNat (w * (ic : ℚ)))
        (pyIntNat (w * (oc : ℚ))) st).inCh =
      (SqnxtBlock.make (pyIntNat (w * (ic : ℚ)))
        (pyIntNat (w * (oc : ℚ))) st).outCh := by
  have h2 := (shortcut_none_iff _ _ _).1 hid
  have hle : pyIntNat (w * (oc : ℚ)) ≤ pyIntNat (w * (ic : ℚ)) :=
    pyIntNat_le_pyIntNat (mul_nonneg hw (Nat.cast_nonneg oc))
      (mul_le_mul_of_nonneg_left (Nat.cast_le.2 hocic) hw)
  exact le_antisymm h2.2 hle

/-- Claim C1, counterexample.  The claim states that the third chained
ConvUnit of a `SqnxtBlock` maps `in/(2d)` channels to `in/(2d)` channels; in
the code its output width is `in // d`.  At `(in_channels, out_channels,
strides) = (64, 64, 1)` the denominator is 2, the claimed conv3 output width
is `64 / 4 = 16`, but the constructed conv3 has 32 output channels. -/
theorem claim_C1_counterexample :
    ¬ ((SqnxtBlock.make 64 64 1).conv3.conv.channels =
      64 / (2 * reduction_den 64 64 1)) := by decide

/-- Claim C1, amended: the five chained ConvUnits of
`SqnxtBlock(in_channels, out_channels, strides)` with denominator
`d = reduction_den` have widths in→in/d (1x1, stride `strides`), in/d→in/(2d)
(1x1), in/(2d)→in/d (1x3 kernel, padding (0,1)), in/d→in/d (3x1 kernel,
padding (1,0)), and in/d→out (1x1): the third unit expands back to `in/d`
rather than keeping `in/(2d)` as the claim stated. -/
theorem claim_C1 (ic oc s : ℕ) :
    (SqnxtBlock.make ic oc s).conv1 =
      SqnxtConv.make ic (ic / reduction_den ic oc s) (1, 1) (s, s) (0, 0) ∧
    (SqnxtBlock.make ic oc s).conv2 =
      SqnxtConv.make (ic / reduction_den ic oc s)
        (ic / (2 * reduction_den ic oc s)) (1, 1) (1, 1) (0, 0) ∧
    (SqnxtBlock.make ic oc s).conv3 =
      SqnxtConv.make (ic / (2 * reduction_den ic oc s))
        (ic / reduction_den ic oc s) (1, 3) (1, 1) (0, 1) ∧
    (SqnxtBlock.make ic oc s).conv4 =
      SqnxtConv.make (ic / reduction_den ic oc s)
        (ic / reduction_den ic oc s) (3, 1) (1, 1) (1, 0) ∧
    (SqnxtBlock.make ic oc s).conv5 =
      SqnxtConv.make (ic / reduction_den ic oc s) oc (1, 1) (1, 1) (0, 0) :=
  ⟨rfl, rfl, rfl, rfl, rfl⟩

/-- Claim C2: the reduction denominator of `SqnxtBlock(in_channels,
out_channels, strides)` is 1 when `strides = 2` (regardless of the channel
comparison), else 4 when `in_channels > out_channels`, else 2; and the
projection (1x1 ConvUnit) shortcut is present exactly when `strides = 2` or
`in_channels > out_channels` (written `oc < ic`). -/
theorem claim_C2 (ic oc s : ℕ) :
    reduction_den ic oc 2 = 1 ∧
    reduction_den ic oc s = (if s = 2 then 1 else if oc < ic then 4 else 2) ∧
    ((SqnxtBlock.make ic oc s).shortcut.isSome ↔ (s = 2 ∨ oc < ic)) ∧
    (SqnxtBlock.make ic oc s).shortcut =
      (if s = 2 ∨ oc < ic then
        some (SqnxtConv.make ic oc (1, 1) (s, s) (0, 0))
      else none) := by
  refine ⟨rfl, ?_, ?_, shortcut_make ic oc s⟩
  · unfold reduction_den reductionConfig
    split_ifs <;> rfl
  · rw [shortcut_make]
    by_cases h : s = 2 ∨ oc < ic <;> simp [h]

/-- Claim C6, counterexample.  The claim states that the convolution inside
every ConvUnit carries no bias term; the source never passes `use_bias` to
`nn.Conv2D`, whose Gluon default is `use_bias=True`, so e.g. the stem-shaped
unit `SqnxtConv(3, 64, 7, 2, (1,1))` has a biased convolution. -/
theorem claim_C6_counterexample :
    ¬ ((SqnxtConv.make 3 64 (7, 7) (2, 2) (1, 1)).conv.use_bias = false) := by
  decide

/-- Claim C6, amended: every ConvUnit applies, in order, a convolution (with
the framework-default bias term, since `use_bias` is never passed), then batch
normalization over the `out_channels` channel dimension, then a
rectified-linear activation. -/
theorem claim_C6 {T : Type} (ops : TensorOps T) (ic oc : ℕ) (k s p : ℕ × ℕ)
    (x : T) :
    (SqnxtConv.make ic oc k s p).forward ops x =
      ops.activationOp Activation.relu
        (ops.batchNormOp { in_channels := oc }
          (ops.conv2dOp (nnConv2D oc k s p ic) x)) ∧
    (SqnxtConv.make ic oc k s p).conv.use_bias = true ∧
    (SqnxtConv.make ic oc k s p).bn.in_channels = oc ∧
    (SqnxtConv.make ic oc k s p).activ = Activation.relu :=
  ⟨rfl, rfl, rfl, rfl⟩

/-- Claim C3: the forward pass of `SqnxtBlock(in_channels, out_channels,
strides)` returns `activ(chain(x) + shortcut(x))`, where `chain` is the five
chained ConvUnits applied to `x`, `shortcut` is the projection ConvUnit
applied to the original input when the projection condition holds and
otherwise a parameter-free ReLU applied to the original input, and the final
`activ` is a ReLU applied after the addition. -/
theorem claim_C3 {T : Type} (ops : TensorOps T) (ic oc s : ℕ) (x : T) :
    (SqnxtBlock.make ic oc s).forward ops x =
      ops.activationOp Activation.relu
        (ops.addOp
          ((SqnxtBlock.make ic oc s).conv5.forward ops
            ((SqnxtBlock.make ic oc s).conv4.forward ops
              ((SqnxtBlock.make ic oc s).conv3.forward ops
                ((SqnxtBlock.make ic oc s).conv2.forward ops
                  ((SqnxtBlock.make ic oc s).conv1.forward ops x)))))
          (if s = 2 ∨ oc < ic then
            (SqnxtConv.make ic oc (1, 1) (s, s) (0, 0)).forward ops x
          else ops.activationOp Activation.relu x)) := by
  by_cases h : s = 2 ∨ oc < ic
  · have hf : reduceFlag ic oc s = true := (reduceFlag_eq_true_iff ic oc s).2 h
    simp only [SqnxtBlock.forward, SqnxtBlock.make, hf, if_pos h, ite_true]
  · have hf : reduceFlag ic oc s = false := by
      cases hb : reduceFlag ic oc s with
      | false => rfl
      | true => exact absurd ((reduceFlag_eq_true_iff ic oc s).1 hb) h
    simp only [SqnxtBlock.forward, SqnxtBlock.make, hf, if_neg h,
      Bool.false_eq_true, ite_false]

/-- Claim C4: `get_squeezenext` maps tag "23" to per-stage block counts
[6,6,8,1] and tag "23v5" to [2,4,14,1] (visible as the stage lengths of the
constructed network); any other tag yields a ValueError whose message
contains the offending tag, and no network is constructed. -/
theorem claim_C4 (arch_type : String) (scale : ℚ) (pretrained : Bool)
    (h23 : arch_type ≠ "23") (h23v5 : arch_type ≠ "23v5") :
    get_squeezenext arch_type scale pretrained =
      Except.error
        ("Unsupported SqueezeNet architecture type " ++ arch_type) ∧
    (∃ pre, "Unsupported SqueezeNet architecture type " ++ arch_type =
      pre ++ arch_type) ∧
    ((get_squeezenext "23" scale false).map fun net =>
      net.stages.map List.length) = Except.ok [6, 6, 8, 1] ∧
    ((get_squeezenext "23v5" scale false).map fun net =>
      net.stages.map List.length) = Except.ok [2, 4, 14, 1] := by
  refine ⟨?_, ⟨"Unsupported SqueezeNet architecture type ", rfl⟩, rfl, rfl⟩
  simp [get_squeezenext, archBlocks, h23, h23v5]

/-- Claim C4, witness at the unsupported tag "custom". -/
theorem claim_C4_witness :
    ("custom" : String) ≠ "23" ∧ ("custom" : String) ≠ "23v5" ∧
    (get_squeezenext "custom" 1 true =
      Except.error ("Unsupported SqueezeNet architecture type " ++ "custom") ∧
    (∃ pre, "Unsupported SqueezeNet architecture type " ++ "custom" =
      pre ++ "custom") ∧
    ((get_squeezenext "23" 1 false).map fun net =>
      net.stages.map List.length) = Except.ok [6, 6, 8, 1] ∧
    ((get_squeezenext "23v5" 1 false).map fun net =>
      net.stages.map List.length) = Except.ok [2, 4, 14, 1]) :=
  ⟨by decide, by decide, claim_C4 "custom" 1 true (by decide) (by decide)⟩

/-- Claim C5: for every supported tag and every scale, requesting
`pretrained=True` raises the pretrained ValueError, and no network is
constructed. -/
theorem claim_C5 (arch_type : String) (scale : ℚ)
    (h : arch_type = "23" ∨ arch_type = "23v5") :
    get_squeezenext arch_type scale true =
      Except.error "Pretrained model is not supported" := by
  rcases h with h | h <;> subst h <;> rfl

/-- Claim C5, witness at tag "23", scale 1. -/
theorem claim_C5_witness :
    (("23" : String) = "23" ∨ ("23" : String) = "23v5") ∧
    get_squeezenext "23" 1 true =
      Except.error "Pretrained model is not supported" :=
  ⟨Or.inl rfl, claim_C5 "23" 1 (Or.inl rfl)⟩

/-- Claim C9: the unrecognized-tag check precedes the pretrained check — for
a tag other than "23" and "23v5" the call raises the unsupported-architecture
ValueError even when `pretrained=True`. -/
theorem claim_C9 (arch_type : String) (scale : ℚ)
    (h23 : arch_type ≠ "23") (h23v5 : arch_type ≠ "23v5") :
    get_squeezenext arch_type scale true =
      Except.error
        ("Unsupported SqueezeNet architecture type " ++ arch_type) := by
  simp [get_squeezenext, archBlocks, h23, h23v5]

/-- Claim C9, witness at the unsupported tag "foo". -/
theorem claim_C9_witness :
    ("foo" : String) ≠ "23" ∧ ("foo" : String) ≠ "23v5" ∧
    get_squeezenext "foo" 2 true =
      Except.error ("Unsupported SqueezeNet architecture type " ++ "foo") :=
  ⟨by decide, by decide, claim_C9 "foo" 2 (by decide) (by decide)⟩

unseal Rat.mul Rat.inv in
/-- Claim C7, counterexample.  The claim states that a stage's first block
has `round(width * base_channels)` output channels; the code computes
`int(width * base_channels)`, which truncates.  At width 99/100 with block
counts [1,1,1,1], stage 0's first block gets `int(0.99 * 32) = 31` output
channels while `round(0.99 * 32) = 32`. -/
theorem claim_C7_counterexample :
    ((SqueezeNext.make (99 / 100) [1, 1, 1, 1] 1000).getD
        default).stages.headI.headI.outCh = 31 ∧
    round ((99 : ℚ) / 100 * 32) = 32 :=
  ⟨by decide, by norm_num [round_eq]⟩

/-- Claim C7, amended: for every stage `i` of a constructed SqueezeNext, the
stage contains exactly `blocks[i]` SqnxtBlocks when `blocks[i] ≥ 1` (a zero
entry still yields one block, since the stride list always contains the
stage's leading stride); the first block uses stride `[1,2,2,2][i]` and maps
the running input width to `int(width * [32,64,128,256][i])` output channels
(truncation, not rounding), and every subsequent block uses stride 1 with
that output channel count as both its input and output channels. -/
theorem claim_C7 (width_x : ℚ) (blocks : List ℕ) (classes : ℕ)
    (net : SqueezeNext)
    (h : SqueezeNext.make width_x blocks classes = some net)
    (i : ℕ) (hi : i < blocks.length) :
    net.stages.length = blocks.length ∧
    (net.stages.getD i []).length = max (blocks.getD i 0) 1 ∧
    ∃ first rest, net.stages.getD i [] = first :: rest ∧
      first.strideOf = strides_per_stage.getD i 0 ∧
      first.inCh =
        pyIntNat (width_x * ((List.getD [64, 32, 64, 128] i 0 : ℕ) : ℚ)) ∧
      first.outCh =
        pyIntNat (width_x * ((out_channels_per_stage.getD i 0 : ℕ) : ℚ)) ∧
      ∀ b ∈ rest, b.strideOf = 1 ∧
        b.inCh =
          pyIntNat (width_x * ((out_channels_per_stage.getD i 0 : ℕ) : ℚ)) ∧
        b.outCh =
          pyIntNat (width_x * ((out_channels_per_stage.getD i 0 : ℕ) : ℚ)) := by
  rcases blocks with _ | ⟨b0, _ | ⟨b1, _ | ⟨b2, _ | ⟨b3, _ | ⟨b4, rest2⟩⟩⟩⟩⟩
  · simp at hi
  · rw [make_one] at h
    injection h with h
    subst h
    simp only [List.length_cons, List.length_nil] at hi
    rcases i with _ | i
    · exact ⟨rfl, stageOf_length width_x 64 32 1 b0,
        stageOf_spec width_x 64 32 1 b0⟩
    · exact absurd hi (by omega)
  · rw [make_two] at h
    injection h with h
    subst h
    simp only [List.length_cons, List.length_nil] at hi
    rcases i with _ | _ | i
    · exact ⟨rfl, stageOf_length width_x 64 32 1 b0,
        stageOf_spec width_x 64 32 1 b0⟩
    · exact ⟨rfl, stageOf_length width_x 32 64 2 b1,
        stageOf_spec width_x 32 64 2 b1⟩
    · exact absurd hi (by omega)
  · rw [make_three] at h
    injection h with h
    subst h
    simp only [List.length_cons, List.length_nil] at hi
    rcases i with _ | _ | _ | i
    · exact ⟨rfl, stageOf_length width_x 64 32 1 b0,
        stageOf_spec width_x 64 32 1 b0⟩
    · exact ⟨rfl, stageOf_length width_x 32 64 2 b1,
        stageOf_spec width_x 32 64 2 b1⟩
    · exact ⟨rfl, stageOf_length width_x 64 128 2 b2,
        stageOf_spec width_x 64 128 2 b2⟩
    · exact absurd hi (by omega)
  · rw [make_four] at h
    injection h with h
    subst h
    simp only [List.length_cons, List.length_nil] at hi
    rcases i with _ | _ | _ | _ | i
    · exact ⟨rfl, stageOf_length width_x 64 32 1 b0,
        stageOf_spec width_x 64 32 1 b0⟩
    · exact ⟨rfl, stageOf_length width_x 32 64 2 b1,
        stageOf_spec width_x 32 64 2 b1⟩
    · exact ⟨rfl, stageOf_length width_x 64 128 2 b2,
        stageOf_spec width_x 64 128 2 b2⟩
    · exact ⟨rfl, stageOf_length width_x 128 256 2 b3,
        stageOf_spec width_x 128 256 2 b3⟩
    · exact absurd hi (by omega)
  · rw [make_five_none] at h
    exact Option.noConfusion h

/-- Claim C7, witness at width 1, block counts [6,6,8,1], stage 0. -/
theorem claim_C7_witness :
    SqueezeNext.make 1 [6, 6, 8, 1] 1000 =
      some ((SqueezeNext.make 1 [6, 6, 8, 1] 1000).getD default) ∧
    0 < [6, 6, 8, 1].length ∧
    (((SqueezeNext.make 1 [6, 6, 8, 1] 1000).getD default).stages.length =
      [6, 6, 8, 1].length ∧
    ((((SqueezeNext.make 1 [6, 6, 8, 1] 1000).getD default).stages.getD 0
      []).length = max ([6, 6, 8, 1].getD 0 0) 1) ∧
    ∃ first rest,
      ((SqueezeNext.make 1 [6, 6, 8, 1] 1000).getD default).stages.getD 0
        [] = first :: rest ∧
      first.strideOf = strides_per_stage.getD 0 0 ∧
      first.inCh =
        pyIntNat (1 * ((List.getD [64, 32, 64, 128] 0 0 : ℕ) : ℚ)) ∧
      first.outCh =
        pyIntNat (1 * ((out_channels_per_stage.getD 0 0 : ℕ) : ℚ)) ∧
      ∀ b ∈ rest, b.strideOf = 1 ∧
        b.inCh =
          pyIntNat (1 * ((out_channels_per_stage.getD 0 0 : ℕ) : ℚ)) ∧
        b.outCh =
          pyIntNat (1 * ((out_channels_per_stage.getD 0 0 : ℕ) : ℚ))) :=
  ⟨rfl, by decide, claim_C7 1 [6, 6, 8, 1] 1000 _ rfl 0 (by decide)⟩

/-- Claim C8: in the four-stage configuration, the running channel count used
for each block's input width is updated to the unscaled stage base value, and
each stage's first-block input width is `int(width * unscaled_running)` (the
unscaled running values being 64, 32, 64, 128); in particular the final 1x1
ConvUnit's input width is `int(width * 256)`. -/
theorem claim_C8 (width_x : ℚ) (b0 b1 b2 b3 classes : ℕ)
    (net : SqueezeNext)
    (h : SqueezeNext.make width_x [b0, b1, b2, b3] classes = some net) :
    net.final_block.conv.in_channels = pyIntNat (width_x * 256) ∧
    net.stages.map (fun stg => stg.headI.inCh) =
      [pyIntNat (width_x * 64), pyIntNat (width_x * 32),
       pyIntNat (width_x * 64), pyIntNat (width_x * 128)] := by
  rw [make_four] at h
  injection h with h
  subst h
  constructor
  · rfl
  · simp only [stageOf, List.map_cons, List.map_nil, List.headI]
    norm_num [SqnxtBlock.inCh, SqnxtBlock.make, SqnxtConv.make, nnConv2D]

/-- Claim C8, witness at width 3/2 and block counts [6,6,8,1]. -/
theorem claim_C8_witness :
    SqueezeNext.make (3 / 2) [6, 6, 8, 1] 1000 =
      some ((SqueezeNext.make (3 / 2) [6, 6, 8, 1] 1000).getD default) ∧
    (((SqueezeNext.make (3 / 2) [6, 6, 8, 1] 1000).getD
        default).final_block.conv.in_channels = pyIntNat ((3 / 2) * 256) ∧
    ((SqueezeNext.make (3 / 2) [6, 6, 8, 1] 1000).getD
        default).stages.map (fun stg => stg.headI.inCh) =
      [pyIntNat ((3 / 2) * 64), pyIntNat ((3 / 2) * 32),
       pyIntNat ((3 / 2) * 64), pyIntNat ((3 / 2) * 128)]) :=
  ⟨rfl, claim_C8 (3 / 2) 6 6 8 1 1000 _ rfl⟩

/-- Claim C10: every SqnxtBlock constructed by `SqueezeNext` (any nonnegative
width multiplier, any block-count list) that takes the identity shortcut path
(no projection; `shortcut = none`) has equal input and output channel counts,
so the residual addition is well-shaped in the channel dimension. -/
theorem claim_C10 (width_x : ℚ) (blocks : List ℕ) (classes : ℕ)
    (net : SqueezeNext) (hw : 0 ≤ width_x)
    (h : SqueezeNext.make width_x blocks classes = some net)
    (stg : List SqnxtBlock) (hstg : stg ∈ net.stages)
    (b : SqnxtBlock) (hb : b ∈ stg) (hid : b.shortcut = none) :
    b.inCh = b.outCh := by
  rcases blocks with _ | ⟨b0, _ | ⟨b1, _ | ⟨b2, _ | ⟨b3, _ | ⟨b4, rest2⟩⟩⟩⟩⟩
  · rw [make_nil] at h
    injection h with h
    subst h
    simp at hstg
  · rw [make_one] at h
    injection h with h
    subst h
    simp only [List.mem_cons, List.not_mem_nil, or_false] at hstg
    subst hstg
    rcases mem_stageOf _ _ _ _ _ hb with hbe | hbe <;> subst hbe <;>
      first
        | rfl
        | exact absurd rfl (((shortcut_none_iff _ _ _).1 hid).1)
        | exact firstBlock_identity width_x hw (by norm_num) hid
  · rw [make_two] at h
    injection h with h
    subst h
    simp only [List.mem_cons, List.not_mem_nil, or_false] at hstg
    rcases hstg with hstg | hstg <;> subst hstg <;>
      rcases mem_stageOf _ _ _ _ _ hb with hbe | hbe <;> subst hbe <;>
      first
        | rfl
        | exact absurd rfl (((shortcut_none_iff _ _ _).1 hid).1)
        | exact firstBlock_identity width_x hw (by norm_num) hid
  · rw [make_three] at h
    injection h with h
    subst h
    simp only [List.mem_cons, List.not_mem_nil, or_false] at hstg
    rcases hstg with hstg | hstg | hstg <;> subst hstg <;>
      rcases mem_stageOf _ _ _ _ _ hb with hbe | hbe <;> subst hbe <;>
      first
        | rfl
        | exact absurd rfl (((shortcut_none_iff _ _ _).1 hid).1)
        | exact firstBlock_identity width_x hw (by norm_num) hid
  · rw [make_four] at h
    injection h with h
    subst h
    simp only [List.mem_cons, List.not_mem_nil, or_false] at hstg
    rcases hstg with hstg | hstg | hstg | hstg <;> subst hstg <;>
      rcases mem_stageOf _ _ _ _ _ hb with hbe | hbe <;> subst hbe <;>
      first
        | rfl
        | exact absurd rfl (((shortcut_none_iff _ _ _).1 hid).1)
        | exact firstBlock_identity width_x hw (by norm_num) hid
  · rw [make_five_none] at h
    exact Option.noConfusion h

unseal Rat.mul Rat.inv in
/-- Claim C10, witness: at width 1 with block counts [6,6,8,1], the second
block of stage 0 takes the identity path and has 32 input and 32 output
channels. -/
theorem claim_C10_witness :
    (0 : ℚ) ≤ 1 ∧
    SqueezeNext.make 1 [6, 6, 8, 1] 1000 =
      some ((SqueezeNext.make 1 [6, 6, 8, 1] 1000).getD default) ∧
    ((SqueezeNext.make 1 [6, 6, 8, 1] 1000).getD default).stages.getD 0 [] ∈
      ((SqueezeNext.make 1 [6, 6, 8, 1] 1000).getD default).stages ∧
    (((SqueezeNext.make 1 [6, 6, 8, 1] 1000).getD default).stages.getD 0
        []).getD 1 default ∈
      ((SqueezeNext.make 1 [6, 6, 8, 1] 1000).getD default).stages.getD 0
        [] ∧
    ((((SqueezeNext.make 1 [6, 6, 8, 1] 1000).getD default).stages.getD 0
        []).getD 1 default).shortcut = none ∧
    ((((SqueezeNext.make 1 [6, 6, 8, 1] 1000).getD default).stages.getD 0
        []).getD 1 default).inCh =
      ((((SqueezeNext.make 1 [6, 6, 8, 1] 1000).getD default).stages.getD 0
        []).getD 1 default).outCh :=
  ⟨by norm_num, rfl, by decide, by decide, by decide,
    claim_C10 1 [6, 6, 8, 1] 1000
      ((SqueezeNext.make 1 [6, 6, 8, 1] 1000).getD default) (by norm_num) rfl
      (((SqueezeNext.make 1 [6, 6, 8, 1] 1000).getD default).stages.getD 0 [])
      (by decide)
      ((((SqueezeNext.make 1 [6, 6, 8, 1] 1000).getD default).stages.getD 0
        []).getD 1 default)
      (by decide) (by decide)⟩
